import Mathlib

/-!
Verification of the workerd JSG embedding layer and its V8 promise
context-tagging patch.

Part I embeds the promise context tagging protocol from the V8 patch
(`src/unnamed/part_002`): `Runtime_PromiseContextInit`,
`Runtime_PromiseContextCheck`, `Isolate::RunPromiseCrossContextCallback`,
`Isolate::PromiseContextScope`, `Isolate::PromiseCrossContextCallbackScope`,
`Factory::NewJSPromiseWithoutHook` and the Torque macro
`PerformPromiseThenImpl`.

Part II embeds the isolate lock / deferred-destruction machinery of
`src/src/workerd/jsg/setup.h`: `IsolateBase::RefToDelete`,
`IsolateBase::deferDestruction`, `IsolateBase::applyDeferredActions`
(modelled from the spec where the implementation file is absent),
`Isolate::Lock::Lock` and `Isolate::getWrapperByContext`.
-/

namespace WorkerdJsg

/-! ## Part I: promise context tagging (V8 patch) -/

/-- A tagged V8 heap value as far as the tagging protocol can observe it:
`Smi::zero()` (the sentinel tag), `the_hole_value()` (the isolate's cleared
ambient tag), or a heap object identified by a numeric identity.  These are
the only values the patch ever stores in `JSPromise::context_tag` or
`Isolate::promise_context_tag_`. -/
inductive HeapVal where
  | smiZero
  | theHole
  | obj (id : Nat)
deriving DecidableEq, Repr

/-- Promise status (`JSPromise::status()`): `kPending` or settled. -/
inductive PromiseStatus where
  | pending
  | fulfilled
  | rejected
deriving DecidableEq, Repr

/-- The fields of `JSPromise` that the patch reads or writes.  `reactions`
models the `reactions_or_result` linked list while pending (new reactions are
prepended, as `NewPromiseReaction` does); a reaction is identified by a
numeric id. -/
structure JSPromise where
  context_tag : HeapVal
  status : PromiseStatus
  reactions : List Nat
  hasHandler : Bool
deriving DecidableEq, Repr

/-- One invocation of the registered `PromiseCrossContextCallback`, recording
the three arguments passed: the current native context (as a numeric context
identity), the promise (by heap index) and the promise's context tag. -/
structure CallbackCall where
  ctx : Nat
  promise : Nat
  tag : HeapVal
deriving DecidableEq, Repr

/-- Failure modes of the modelled runtime functions: a `DCHECK` firing, a
`CHECK` firing, a JavaScript exception propagating out of the cross-context
callback, or dereferencing an invalid promise handle (impossible in the C++
code, where handles are valid by construction). -/
inductive RtError where
  | dcheckFail
  | checkFail
  | jsException
  | invalidHandle
deriving DecidableEq, Repr

/-- The isolate state observed and mutated by the patch:
`promise_context_tag_` (`theHole` when cleared), whether a
`promise_cross_context_callback_` is registered (non-null), the
`in_promise_cross_context_callback_` flag, the current native context
(`Isolate::native_context()`, as a numeric identity), the heap of promises
(index = identity), the log of cross-context callback invocations, and the
microtask queue (reaction job ids) fed by `EnqueueMicrotask`. -/
structure IsoState where
  promiseContextTag : HeapVal
  hasCallback : Bool
  inCallback : Bool
  nativeContext : Nat
  heap : List JSPromise
  callbackLog : List CallbackCall
  microtasks : List Nat
deriving DecidableEq, Repr

/-- Look a promise up by identity. -/
def getPromise (s : IsoState) (pid : Nat) : Option JSPromise :=
  s.heap.get? pid

/-- Store an updated promise back at its identity. -/
def setPromise (s : IsoState) (pid : Nat) (p : JSPromise) : IsoState :=
  { s with heap := s.heap.set pid p }

/-- The registered cross-context callback, abstracted as a pure function from
its three arguments (current native context, promise identity, promise tag)
to the promise it returns; `none` models the callback throwing (an empty
`MaybeLocal`). -/
def Callback : Type := Nat → Nat → HeapVal → Option Nat

/-- `Isolate::RunPromiseCrossContextCallback` (src/execution/isolate.cc in the
patch).  If no callback is registered or `in_promise_cross_context_callback_`
is already set, the promise is returned unchanged.  Otherwise a
`PromiseCrossContextCallbackScope` sets the in-progress flag, the code
`CHECK`s that the promise's `context_tag` is a `JSReceiver`, and the callback
is invoked with `(native context, promise, context_tag)`; its result is
returned and the scope clears the flag (also on the exception path). -/
def runPromiseCrossContextCallback (cb : Callback) (s : IsoState) (pid : Nat) :
    Except RtError (IsoState × Nat) :=
  if s.hasCallback = false ∨ s.inCallback = true then .ok (s, pid)
  else
    match getPromise s pid with
    | none => .error .invalidHandle
    | some p =>
      match p.context_tag with
      | .obj _ =>
        let s1 : IsoState := { s with
          inCallback := true,
          callbackLog := s.callbackLog ++ [⟨s.nativeContext, pid, p.context_tag⟩] }
        match cb s.nativeContext pid p.context_tag with
        | none => .error .jsException
        | some rid => .ok ({ s1 with inCallback := false }, rid)
      | _ => .error .checkFail

/-- `Runtime_PromiseContextCheck` (src/runtime/runtime-promise.cc in the
patch): if the promise's `context_tag` is `Smi::zero()` or strictly equal to
the isolate's `promise_context_tag_`, return the promise itself; otherwise
defer to `RunPromiseCrossContextCallback`. -/
def promiseContextCheck (cb : Callback) (s : IsoState) (pid : Nat) :
    Except RtError (IsoState × Nat) :=
  match getPromise s pid with
  | none => .error .invalidHandle
  | some p =>
    if p.context_tag = .smiZero ∨ p.context_tag = s.promiseContextTag then
      .ok (s, pid)
    else
      runPromiseCrossContextCallback cb s pid

/-- `PerformPromiseThenImpl` (src/builtins/promise-abstract-operations.tq in
the patch).  When the promise is pending, the patched code first obtains
`delegate = runtime::PromiseContextCheck(promise)`, then prepends the new
reaction to the delegate's `reactions_or_result` and sets the delegate's
has-handler flag.  When the promise is already settled, the reaction job is
enqueued as a microtask directly and the original promise's has-handler flag
is set; the context check does not run. -/
def performPromiseThen (cb : Callback) (s : IsoState) (pid : Nat)
    (reaction : Nat) : Except RtError IsoState :=
  match getPromise s pid with
  | none => .error .invalidHandle
  | some p =>
    if p.status = .pending then
      match promiseContextCheck cb s pid with
      | .error e => .error e
      | .ok (s1, did) =>
        match getPromise s1 did with
        | none => .error .invalidHandle
        | some d =>
          .ok (setPromise s1 did
            { d with reactions := reaction :: d.reactions, hasHandler := true })
    else
      .ok { setPromise s pid { p with hasHandler := true } with
            microtasks := s.microtasks ++ [reaction] }

/-- The context tag a freshly created promise receives, per
`Factory::NewJSPromiseWithoutHook` and `Runtime_PromiseContextInit`:
`Smi::zero()` when the isolate has no promise context tag
(`promise_context_tag_` is the hole), otherwise the isolate's current
`promise_context_tag_`. -/
def initContextTag (isolateTag : HeapVal) : HeapVal :=
  if isolateTag = .theHole then .smiZero else isolateTag

/-- Creation of a new `JSPromise` (`Factory::NewJSPromiseWithoutHook`, and
equivalently the Torque `NewJSPromise` paths which call
`runtime::PromiseContextInit` right after `PromiseInit`): the new promise is
appended to the heap with its `context_tag` set from the isolate's current
promise context tag, no reactions, and the has-handler flag clear.  The
settled Torque variant passes a non-pending status, so status is a
parameter.  Returns the new state and the new promise's identity. -/
def newJSPromise (s : IsoState) (status : PromiseStatus) : IsoState × Nat :=
  ({ s with heap := s.heap ++
      [{ context_tag := initContextTag s.promiseContextTag,
         status := status, reactions := [], hasHandler := false }] },
   s.heap.length)

/-- `Isolate::PromiseContextScope` constructor (src/api/api.cc in the patch):
`DCHECK(!isolate_->has_promise_context_tag())` — entering a scope while one
is active fails the assertion — then sets `promise_context_tag_` to the given
tag object.  The tag argument is a `v8::Local<v8::Object>`, hence always a
heap object (`DCHECK(!tag.IsEmpty())`). -/
def promiseContextScopeEnter (s : IsoState) (tagId : Nat) :
    Except RtError IsoState :=
  if s.promiseContextTag ≠ .theHole then .error .dcheckFail
  else .ok { s with promiseContextTag := .obj tagId }

/-- `Isolate::PromiseContextScope` destructor: unconditionally
`clear_promise_context_tag()`, i.e. the ambient tag becomes the hole.  The
destructor runs on every exit path of the scope. -/
def promiseContextScopeExit (s : IsoState) : IsoState :=
  { s with promiseContextTag := .theHole }

/-- `Isolate::SetPromiseCrossContextCallback`: registers the callback. -/
def setPromiseCrossContextCallback (s : IsoState) : IsoState :=
  { s with hasCallback := true }

/-- The operations of the tagging protocol that touch promise state, used to
express that nothing after creation reassigns a promise's context tag. -/
inductive TagOp where
  | create (status : PromiseStatus)
  | thenAttach (pid reaction : Nat)
  | scopeEnter (tagId : Nat)
  | scopeExit
  | registerCallback
deriving DecidableEq, Repr

/-- Small-step semantics over the protocol's operations. -/
def tagStep (cb : Callback) (s : IsoState) : TagOp → Except RtError IsoState
  | .create status => .ok (newJSPromise s status).1
  | .thenAttach pid reaction => performPromiseThen cb s pid reaction
  | .scopeEnter tagId => promiseContextScopeEnter s tagId
  | .scopeExit => .ok (promiseContextScopeExit s)
  | .registerCallback => .ok (setPromiseCrossContextCallback s)

/-- The context tag of the promise at identity `pid`, if any. -/
def tagAt (s : IsoState) (pid : Nat) : Option HeapVal :=
  (getPromise s pid).map JSPromise.context_tag

/-! ## Part II: isolate lock, deferred destruction queue, wrappers
(src/src/workerd/jsg/setup.h) -/

/-- `IsolateBase::DESTRUCTION_QUEUE_INITIAL_SIZE` (setup.h). -/
def DESTRUCTION_QUEUE_INITIAL_SIZE : Nat := 8

/-- `IsolateBase::DESTRUCTION_QUEUE_MAX_CAPACITY` (setup.h): if the queue
grows larger than this, it is reset back to the initial size. -/
def DESTRUCTION_QUEUE_MAX_CAPACITY : Nat := 10000

/-- The deferred-action state of an `IsolateBase`: the backlog of
deferred-destruction items (identified by numeric ids, in enqueue order) with
the capacity of its backing buffer, the destruction actions already
performed (in processing order), the pending external-memory deltas created
while the isolate lock was not held, and the externally-accounted memory as
the engine sees it. -/
structure JsgIsolateState where
  queueBacklog : List Nat
  queueCapacity : Nat
  processed : List Nat
  pendingDeltas : List Int
  externalMemory : Int
deriving DecidableEq, Repr

/-- `IsolateBase::deferDestruction` (setup.h): add an item to the deferred
destruction queue; callable from any thread at any time.  The backing buffer
grows on demand. -/
def deferDestruction (s : JsgIsolateState) (item : Nat) : JsgIsolateState :=
  { s with
    queueBacklog := s.queueBacklog ++ [item],
    queueCapacity := max s.queueCapacity (s.queueBacklog.length + 1) }

/-- Modelled from the spec: `IsolateBase::applyDeferredActions` is declared
in setup.h ("Destroy everything in the deferred destruction queue and apply
deferred external memory updates. Called each time a lock is taken.") but its
implementation file and the `BatchQueue` / `ExternalMemoryTarget`
implementations are not part of the sources; per the spec it (1) drains the
deferred destruction queue completely, processing the whole backlog in
enqueue order and resetting the backing storage to its bounded initial
capacity if it had grown past the configured ceiling, and (2) applies all
pending memory-accounting deltas in one batched update equal to their
arithmetic sum. -/
def applyDeferredActions (s : JsgIsolateState) : JsgIsolateState :=
  { queueBacklog := [],
    queueCapacity :=
      if DESTRUCTION_QUEUE_MAX_CAPACITY < s.queueCapacity then
        DESTRUCTION_QUEUE_INITIAL_SIZE
      else s.queueCapacity,
    processed := s.processed ++ s.queueBacklog,
    pendingDeltas := [],
    externalMemory := s.externalMemory + s.pendingDeltas.sum }

/-- `Isolate::Lock::Lock` (setup.h): acquiring the isolate lock runs
`jsgIsolate.applyDeferredActions()` as its first action. -/
def lockAcquire (s : JsgIsolateState) : JsgIsolateState :=
  applyDeferredActions s

/-- Modelled from the spec: the application of an `ExternalMemoryAdjustment`
delta (the `ExternalMemoryTarget` implementation is not part of the
sources).  Per the spec, a delta applied while the execution lock is held
takes effect immediately; a delta created without the lock is deferred into
the pending set, observed in aggregate at the next lock acquisition. -/
def applyAdjustment (s : JsgIsolateState) (lockHeld : Bool) (delta : Int) :
    JsgIsolateState :=
  if lockHeld then { s with externalMemory := s.externalMemory + delta }
  else { s with pendingDeltas := s.pendingDeltas ++ [delta] }

/-- A batch of adjustments created without the lock: each delta is deferred
into the pending set, in order. -/
def applyOffLockDeltas (s : JsgIsolateState) (ds : List Int) :
    JsgIsolateState :=
  ds.foldl (fun t d => applyAdjustment t false d) s

/-- Operations on the deferred destruction queue: an enqueue (from any
thread) or a drain (at lock acquisition). -/
inductive QOp where
  | enqueue (item : Nat)
  | drain
deriving DecidableEq, Repr

/-- One queue operation. -/
def qStep (s : JsgIsolateState) : QOp → JsgIsolateState
  | .enqueue item => deferDestruction s item
  | .drain => applyDeferredActions s

/-- Run a sequence of queue operations (an interleaving of enqueues and
drains serialized by the queue's internal mutex). -/
def runQOps (s : JsgIsolateState) : List QOp → JsgIsolateState
  | [] => s
  | op :: ops => runQOps (qStep s op) ops

/-- The items enqueued by a sequence of operations, in order. -/
def enqueuedOf : List QOp → List Nat
  | [] => []
  | .enqueue item :: ops => item :: enqueuedOf ops
  | .drain :: ops => enqueuedOf ops

/-- `IsolateBase::RefToDelete` (setup.h): the internals of a `jsg::Ref<T>`
queued for deletion.  `ownValid` models `ownWrappable.get() != nullptr`
(false when moved-from); `wrappable` is the identity of the wrapped object. -/
structure RefToDelete where
  strong : Bool
  ownValid : Bool
  wrappable : Nat
deriving DecidableEq, Repr

/-- Observable effects of destroying a `RefToDelete`: the
`wrappable->removeStrongRef()` call (decrementing the engine-visible strong
reference count) and the release of the owned native object when the
`ownWrappable` member is destroyed. -/
inductive DtorEffect where
  | removeStrongRef (w : Nat)
  | releaseOwn (w : Nat)
deriving DecidableEq, Repr

/-- `RefToDelete::~RefToDelete` (setup.h): the destructor body calls
`wrappable->removeStrongRef()` iff `ownWrappable.get() != nullptr && strong`;
afterwards the `ownWrappable` member's destructor releases the owned native
object (a no-op when moved-from).  Effects are listed in execution order. -/
def RefToDelete.destroy (r : RefToDelete) : List DtorEffect :=
  (if r.ownValid ∧ r.strong then [.removeStrongRef r.wrappable] else []) ++
    (if r.ownValid then [.releaseOwn r.wrappable] else [])

/-- The wrapper-selection state of `Isolate<TypeWrapper>` (setup.h): the
vector of type wrappers (identified by numeric identities; index 0 is the
default wrapper instantiated at construction) and the `hasExtraWrappers`
optimization flag, set only when `newContextWithConfiguration` adds an extra
wrapper. -/
structure IsoWrappers where
  wrappers : List Nat
  hasExtraWrappers : Bool
deriving DecidableEq, Repr

/-- A guest context as seen by wrapper selection: the aligned pointer stored
in embedder-data slot 3 (`none` models a null pointer, as for dummy
contexts). -/
structure GuestContext where
  embedderSlot : Option Nat
deriving DecidableEq, Repr

/-- `Isolate::getWrapperByContext(v8::Local<v8::Context>)` (setup.h): when
`hasExtraWrappers` is false return `wrappers[0]`; otherwise consult the
context's embedder-data slot 3 and fall back to `wrappers[0]` when it holds a
null pointer. -/
def getWrapperByContext (iso : IsoWrappers) (ctx : GuestContext) :
    Option Nat :=
  if iso.hasExtraWrappers = false then iso.wrappers.get? 0
  else
    match ctx.embedderSlot with
    | some p => some p
    | none => iso.wrappers.get? 0

/-! ## Concrete states used to evaluate the model on explicit inputs -/

/-- A pending promise created under ambient tag object 3. -/
def promiseTagged3 : JSPromise :=
  { context_tag := .obj 3, status := .pending, reactions := [],
    hasHandler := false }

/-- A pending promise with the sentinel (untagged) context tag. -/
def promiseUntagged : JSPromise :=
  { context_tag := .smiZero, status := .pending, reactions := [],
    hasHandler := false }

/-- A concrete isolate state: ambient tag is object 5, current native context
is 7, a cross-context callback is registered and not in progress, and the
heap holds `promiseTagged3` (identity 0) and `promiseUntagged`
(identity 1). -/
def sampleIso : IsoState :=
  { promiseContextTag := .obj 5, hasCallback := true, inCallback := false,
    nativeContext := 7, heap := [promiseTagged3, promiseUntagged],
    callbackLog := [], microtasks := [] }

/-- A concrete cross-context callback that always returns promise 1. -/
def sampleCallback : Callback := fun _ _ _ => some 1

/-- `sampleIso` with no cross-context callback registered. -/
def sampleIsoNoCb : IsoState := { sampleIso with hasCallback := false }

/-- `sampleIso` with a cross-context callback invocation in progress. -/
def sampleIsoInCb : IsoState := { sampleIso with inCallback := true }

/-- A concrete deferred-action state of an isolate. -/
def sampleJsg : JsgIsolateState :=
  { queueBacklog := [1, 2], queueCapacity := 8, processed := [0],
    pendingDeltas := [4, -2], externalMemory := 10 }

/-! ## Helper lemmas -/

theorem runPromiseCrossContextCallback_heap (cb : Callback) (s s1 : IsoState)
    (pid rid : Nat)
    (h : runPromiseCrossContextCallback cb s pid = .ok (s1, rid)) :
    s1.heap = s.heap := by
  unfold runPromiseCrossContextCallback at h
  split at h
  · cases h; rfl
  · split at h
    · cases h
    · split at h
      · split at h
        · cases h
        · cases h; rfl
      · cases h

theorem promiseContextCheck_heap (cb : Callback) (s s1 : IsoState)
    (pid rid : Nat) (h : promiseContextCheck cb s pid = .ok (s1, rid)) :
    s1.heap = s.heap := by
  unfold promiseContextCheck at h
  split at h
  · cases h
  · split at h
    · cases h; rfl
    · exact runPromiseCrossContextCallback_heap cb s s1 pid rid h

theorem lt_length_of_getPromise (s : IsoState) (pid : Nat) (p : JSPromise)
    (h : getPromise s pid = some p) : pid < s.heap.length := by
  by_contra hge
  push_neg at hge
  rw [getPromise, List.get?_len_le hge] at h
  cases h

theorem tagAt_setPromise (s : IsoState) (did : Nat) (d d' : JSPromise)
    (hd : getPromise s did = some d)
    (htag : d'.context_tag = d.context_tag) (q : Nat) :
    tagAt (setPromise s did d') q = tagAt s q := by
  by_cases hq : q = did
  · subst hq
    have hlt : q < s.heap.length := lt_length_of_getPromise s q d hd
    have hd' : s.heap[q]? = some d := by
      rw [← List.get?_eq_getElem?]; exact hd
    rw [tagAt, tagAt, getPromise, getPromise, setPromise]
    simp [List.getElem?_set_eq_of_lt d' hlt, hd', htag]
  · rw [tagAt, tagAt, getPromise, getPromise, setPromise]
    simp [List.getElem?_set_ne (fun he => hq he.symm)]

theorem tagAt_eq_of_heap_eq (s1 s2 : IsoState) (h : s1.heap = s2.heap)
    (q : Nat) : tagAt s1 q = tagAt s2 q := by
  rw [tagAt, tagAt, getPromise, getPromise, h]

/-! ## Claim theorems -/

/-- Claim C2: when a reaction is attached to a promise whose context tag is
the sentinel (`Smi::zero()`), or whose tag equals the isolate's currently
active ambient tag, the reaction is attached directly to the original
promise and the cross-context callback is never invoked (the invocation log
is unchanged). -/
theorem C2_sameContextDirectAttach (cb : Callback) (s : IsoState)
    (pid reaction : Nat) (p : JSPromise)
    (hp : getPromise s pid = some p) (hpend : p.status = .pending)
    (htag : p.context_tag = .smiZero ∨ p.context_tag = s.promiseContextTag) :
    performPromiseThen cb s pid reaction =
      .ok (setPromise s pid
        { p with reactions := reaction :: p.reactions, hasHandler := true }) ∧
    (setPromise s pid
        { p with
          reactions := reaction :: p.reactions
          hasHandler := true }).callbackLog = s.callbackLog := by
  have hcheck : promiseContextCheck cb s pid = .ok (s, pid) := by
    unfold promiseContextCheck
    simp only [hp]
    exact if_pos htag
  refine ⟨?_, rfl⟩
  unfold performPromiseThen
  simp only [hp]
  rw [if_pos hpend, hcheck]
  simp only [hp]

/-- Witness for C2: evaluated on the concrete state `sampleIso` at the
untagged promise 1. -/
theorem C2_sameContextDirectAttach_witness :
    performPromiseThen sampleCallback sampleIso 1 11 =
      .ok (setPromise sampleIso 1
        { promiseUntagged with
          reactions := 11 :: promiseUntagged.reactions
          hasHandler := true }) ∧
    (setPromise sampleIso 1
        { promiseUntagged with
          reactions := 11 :: promiseUntagged.reactions
          hasHandler := true }).callbackLog = sampleIso.callbackLog :=
  C2_sameContextDirectAttach sampleCallback sampleIso 1 11 promiseUntagged
    rfl rfl (Or.inl rfl)

/-- Claim C4: if no cross-context callback is registered, attaching a
reaction to a promise whose tag differs from the currently active ambient
tag uses the promise unmodified (fail-open): the chain proceeds exactly as
in the same-context case, with no error raised and no callback
invocation. -/
theorem C4_failOpenWithoutCallback (cb : Callback) (s : IsoState)
    (pid reaction : Nat) (p : JSPromise)
    (hp : getPromise s pid = some p) (hpend : p.status = .pending)
    (hnocb : s.hasCallback = false)
    (_htag : p.context_tag ≠ s.promiseContextTag) :
    performPromiseThen cb s pid reaction =
      .ok (setPromise s pid
        { p with reactions := reaction :: p.reactions, hasHandler := true }) ∧
    (setPromise s pid
        { p with
          reactions := reaction :: p.reactions
          hasHandler := true }).callbackLog = s.callbackLog := by
  have hcheck : promiseContextCheck cb s pid = .ok (s, pid) := by
    unfold promiseContextCheck
    simp only [hp]
    by_cases hc : p.context_tag = .smiZero ∨ p.context_tag = s.promiseContextTag
    · exact if_pos hc
    · rw [if_neg hc]
      unfold runPromiseCrossContextCallback
      rw [if_pos (Or.inl hnocb)]
  refine ⟨?_, rfl⟩
  unfold performPromiseThen
  simp only [hp]
  rw [if_pos hpend, hcheck]
  simp only [hp]

/-- Witness for C4: evaluated on `sampleIsoNoCb` (no callback registered) at
promise 0, whose tag (object 3) differs from the ambient tag (object 5). -/
theorem C4_failOpenWithoutCallback_witness :
    performPromiseThen sampleCallback sampleIsoNoCb 0 12 =
      .ok (setPromise sampleIsoNoCb 0
        { promiseTagged3 with
          reactions := 12 :: promiseTagged3.reactions
          hasHandler := true }) ∧
    (setPromise sampleIsoNoCb 0
        { promiseTagged3 with
          reactions := 12 :: promiseTagged3.reactions
          hasHandler := true }).callbackLog = sampleIsoNoCb.callbackLog :=
  C4_failOpenWithoutCallback sampleCallback sampleIsoNoCb 0 12 promiseTagged3
    rfl rfl rfl (by decide)

/-- Claim C5: a chain attempt made while a cross-context callback invocation
is already in progress (the `in_promise_cross_context_callback_` flag is
set) proceeds with the original promise unmodified and does not invoke the
callback again (the invocation log is unchanged), for any promise whatever
its tag. -/
theorem C5_noRecursiveInterception (cb : Callback) (s : IsoState)
    (pid reaction : Nat) (p : JSPromise)
    (hp : getPromise s pid = some p) (hpend : p.status = .pending)
    (hflag : s.inCallback = true) :
    performPromiseThen cb s pid reaction =
      .ok (setPromise s pid
        { p with reactions := reaction :: p.reactions, hasHandler := true }) ∧
    (setPromise s pid
        { p with
          reactions := reaction :: p.reactions
          hasHandler := true }).callbackLog = s.callbackLog := by
  have hcheck : promiseContextCheck cb s pid = .ok (s, pid) := by
    unfold promiseContextCheck
    simp only [hp]
    by_cases hc : p.context_tag = .smiZero ∨ p.context_tag = s.promiseContextTag
    · exact if_pos hc
    · rw [if_neg hc]
      unfold runPromiseCrossContextCallback
      rw [if_pos (Or.inr hflag)]
  refine ⟨?_, rfl⟩
  unfold performPromiseThen
  simp only [hp]
  rw [if_pos hpend, hcheck]
  simp only [hp]

/-- Witness for C5: evaluated on `sampleIsoInCb` (in-progress flag set) at
the cross-context promise 0. -/
theorem C5_noRecursiveInterception_witness :
    performPromiseThen sampleCallback sampleIsoInCb 0 13 =
      .ok (setPromise sampleIsoInCb 0
        { promiseTagged3 with
          reactions := 13 :: promiseTagged3.reactions
          hasHandler := true }) ∧
    (setPromise sampleIsoInCb 0
        { promiseTagged3 with
          reactions := 13 :: promiseTagged3.reactions
          hasHandler := true }).callbackLog = sampleIsoInCb.callbackLog :=
  C5_noRecursiveInterception sampleCallback sampleIsoInCb 0 13 promiseTagged3
    rfl rfl rfl

/-- Claim C1, amended: for a promise whose context tag is `obj t` (not the
sentinel), chained while the ambient tag is `obj u` with `t ≠ u`, with a
cross-context callback registered and no invocation already in progress, the
callback is invoked exactly once per chaining attempt — the invocation log
grows by exactly one entry — with arguments (current native context,
promise, `obj t`), and the reaction is attached to the promise the callback
returns rather than to the original.  (The claim as frozen says the first
argument is the ambient tag `U`; the code passes
`isolate->native_context()`, which is a distinct piece of isolate state —
see the counterexample.) -/
theorem C1_crossContextCallbackIntercepts (cb : Callback) (s : IsoState)
    (pid reaction t u rid : Nat) (p d : JSPromise)
    (hp : getPromise s pid = some p) (hpend : p.status = .pending)
    (ht : p.context_tag = .obj t) (hu : s.promiseContextTag = .obj u)
    (hne : t ≠ u) (hcb : s.hasCallback = true) (hflag : s.inCallback = false)
    (hret : cb s.nativeContext pid (.obj t) = some rid)
    (hd : getPromise s rid = some d) :
    performPromiseThen cb s pid reaction =
      .ok (setPromise
        { s with
          inCallback := false
          callbackLog := s.callbackLog ++ [⟨s.nativeContext, pid, .obj t⟩] }
        rid
        { d with
          reactions := reaction :: d.reactions
          hasHandler := true }) := by
  have hcond : ¬(p.context_tag = .smiZero ∨
      p.context_tag = s.promiseContextTag) := by
    rw [ht, hu]
    simp [hne]
  have hguard : ¬(s.hasCallback = false ∨ s.inCallback = true) := by
    rw [hcb, hflag]
    simp
  have hrun : runPromiseCrossContextCallback cb s pid =
      .ok ({ s with
             inCallback := false
             callbackLog :=
               s.callbackLog ++ [⟨s.nativeContext, pid, .obj t⟩] }, rid) := by
    unfold runPromiseCrossContextCallback
    rw [if_neg hguard]
    simp only [hp, ht, hret]
  have hcheck : promiseContextCheck cb s pid =
      .ok ({ s with
             inCallback := false
             callbackLog :=
               s.callbackLog ++ [⟨s.nativeContext, pid, .obj t⟩] }, rid) := by
    unfold promiseContextCheck
    simp only [hp]
    rw [if_neg hcond]
    exact hrun
  have hd2 : getPromise
      { s with
        inCallback := false
        callbackLog := s.callbackLog ++ [⟨s.nativeContext, pid, .obj t⟩] }
      rid = some d := hd
  unfold performPromiseThen
  simp only [hp]
  rw [if_pos hpend, hcheck]
  simp only [hd2]

/-- Witness for the amended C1: evaluated on `sampleIso` (ambient tag
object 5, native context 7) at promise 0 (tag object 3); `sampleCallback`
returns promise 1 and the reaction lands there. -/
theorem C1_crossContextCallbackIntercepts_witness :
    performPromiseThen sampleCallback sampleIso 0 42 =
      .ok (setPromise
        { sampleIso with
          inCallback := false
          callbackLog :=
            sampleIso.callbackLog ++ [⟨sampleIso.nativeContext, 0, .obj 3⟩] }
        1
        { promiseUntagged with
          reactions := 42 :: promiseUntagged.reactions
          hasHandler := true }) :=
  C1_crossContextCallbackIntercepts sampleCallback sampleIso 0 42 3 5 1
    promiseTagged3 promiseUntagged rfl rfl rfl rfl (by decide) rfl rfl rfl rfl

/-- Counterexample to claim C1 as frozen: on `sampleIso` the ambient tag is
object 5 but the single callback invocation receives the current native
context (identity 7) as its first argument, not the ambient tag — the
callback is not invoked with `(U, value, T)`. -/
theorem C1_counterexample :
    sampleIso.promiseContextTag = .obj 5 ∧
    Except.map IsoState.callbackLog
        (performPromiseThen sampleCallback sampleIso 0 42) =
      .ok [⟨7, 0, .obj 3⟩] ∧
    (7 : Nat) ≠ 5 :=
  ⟨rfl, rfl, by decide⟩

/-- Claim C3: every operation of the protocol leaves the context tag of
every existing promise unchanged (the tag is consulted, never reassigned,
at chaining time), and a creation sets the new promise's tag to the
currently active ambient tag if one is active and to the sentinel
otherwise. -/
theorem C3_tagSetOnceAtCreation (cb : Callback) (s s' : IsoState) (op : TagOp)
    (h : tagStep cb s op = .ok s') :
    (∀ pid, pid < s.heap.length → tagAt s' pid = tagAt s pid) ∧
    (∀ status, op = .create status →
      tagAt s' s.heap.length = some (initContextTag s.promiseContextTag)) := by
  cases op with
  | create status =>
    simp only [tagStep] at h
    injection h with h1
    subst h1
    constructor
    · intro pid hlt
      rw [tagAt, tagAt, getPromise, getPromise, newJSPromise]
      simp only [List.get?_append hlt]
    · intro st _
      rw [tagAt, getPromise, newJSPromise]
      simp only [List.get?_concat_length]
      rfl
  | thenAttach pid reaction =>
    refine ⟨?_, fun st hst => by cases hst⟩
    intro q _
    simp only [tagStep, performPromiseThen] at h
    split at h
    · cases h
    next p hp =>
      split at h
      · split at h
        · cases h
        next s1 did hcheck =>
          split at h
          · cases h
          next d hd =>
            injection h with h1
            subst h1
            have hheap : s1.heap = s.heap :=
              promiseContextCheck_heap cb s s1 pid did hcheck
            calc tagAt (setPromise s1 did
                  { d with
                    reactions := reaction :: d.reactions
                    hasHandler := true }) q
                = tagAt s1 q := tagAt_setPromise s1 did d
                    { d with
                      reactions := reaction :: d.reactions
                      hasHandler := true } hd rfl q
              _ = tagAt s q := tagAt_eq_of_heap_eq s1 s hheap q
      · injection h with h1
        subst h1
        calc tagAt { setPromise s pid { p with hasHandler := true } with
              microtasks := s.microtasks ++ [reaction] } q
            = tagAt (setPromise s pid { p with hasHandler := true }) q :=
              tagAt_eq_of_heap_eq _ _ rfl q
          _ = tagAt s q := tagAt_setPromise s pid p
                { p with hasHandler := true } hp rfl q
  | scopeEnter tagId =>
    refine ⟨?_, fun st hst => by cases hst⟩
    intro q _
    simp only [tagStep, promiseContextScopeEnter] at h
    split at h
    · cases h
    · injection h with h1
      subst h1
      rfl
  | scopeExit =>
    refine ⟨?_, fun st hst => by cases hst⟩
    intro q _
    simp only [tagStep] at h
    injection h with h1
    subst h1
    rfl
  | registerCallback =>
    refine ⟨?_, fun st hst => by cases hst⟩
    intro q _
    simp only [tagStep] at h
    injection h with h1
    subst h1
    rfl

/-- Witness for C3: a creation on `sampleIso` (ambient tag object 5)
preserves the tag of existing promise 0 and tags the new promise (heap
index 2) with object 5. -/
theorem C3_tagSetOnceAtCreation_witness :
    tagAt (newJSPromise sampleIso .pending).1 0 = tagAt sampleIso 0 ∧
    tagAt (newJSPromise sampleIso .pending).1 sampleIso.heap.length
      = some (initContextTag sampleIso.promiseContextTag) :=
  ⟨(C3_tagSetOnceAtCreation sampleCallback sampleIso
      (newJSPromise sampleIso .pending).1 (.create .pending) rfl).1 0
      (by decide),
   (C3_tagSetOnceAtCreation sampleCallback sampleIso
      (newJSPromise sampleIso .pending).1 (.create .pending) rfl).2 .pending
      rfl⟩

/-- Claim C6: entering a promise-context scope while one is already active
fails the constructor's assertion (modelled with `DCHECK`-enabled
semantics, so the failure precludes any overwrite of the outer tag), and
the scope's destructor — which runs on every exit path — always clears the
ambient tag. -/
theorem C6_scopeNonReentrant (s : IsoState) (tagId : Nat) :
    (s.promiseContextTag ≠ .theHole →
      promiseContextScopeEnter s tagId = .error .dcheckFail) ∧
    (promiseContextScopeExit s).promiseContextTag = .theHole := by
  refine ⟨fun h => ?_, rfl⟩
  unfold promiseContextScopeEnter
  rw [if_pos h]

/-- Witness for C6: on `sampleIso`, whose ambient tag (object 5) is active,
entering a second scope fails and exiting clears the tag. -/
theorem C6_scopeNonReentrant_witness :
    promiseContextScopeEnter sampleIso 2 = .error .dcheckFail ∧
    (promiseContextScopeExit sampleIso).promiseContextTag = .theHole :=
  ⟨(C6_scopeNonReentrant sampleIso 2).1 (by decide),
   (C6_scopeNonReentrant sampleIso 2).2⟩

theorem applyOffLockDeltas_spec (ds : List Int) (s : JsgIsolateState) :
    applyOffLockDeltas s ds =
      { s with pendingDeltas := s.pendingDeltas ++ ds } := by
  induction ds generalizing s with
  | nil => simp [applyOffLockDeltas]
  | cons d ds ih =>
    have hstep : applyOffLockDeltas s (d :: ds) =
        applyOffLockDeltas (applyAdjustment s false d) ds := rfl
    rw [hstep, ih]
    simp [applyAdjustment]

/-- Claim C7: a lock acquisition drains the deferred destruction queue
completely (processing the whole backlog) and applies all deltas created
without the lock since the previous acquisition as one batched update whose
value is their arithmetic sum; a delta applied while the lock is held takes
effect immediately. -/
theorem C7_lockAppliesDeferredActions (s : JsgIsolateState) (ds : List Int)
    (d : Int) :
    (lockAcquire (applyOffLockDeltas s ds)).externalMemory
        = s.externalMemory + (s.pendingDeltas ++ ds).sum ∧
    (lockAcquire (applyOffLockDeltas s ds)).queueBacklog = [] ∧
    (lockAcquire (applyOffLockDeltas s ds)).processed
        = s.processed ++ s.queueBacklog ∧
    (lockAcquire (applyOffLockDeltas s ds)).pendingDeltas = [] ∧
    applyAdjustment s true d =
      { s with externalMemory := s.externalMemory + d } := by
  rw [applyOffLockDeltas_spec]
  exact ⟨rfl, rfl, rfl, rfl, rfl⟩

theorem runQOps_append (s : JsgIsolateState) (ops1 ops2 : List QOp) :
    runQOps s (ops1 ++ ops2) = runQOps (runQOps s ops1) ops2 := by
  induction ops1 generalizing s with
  | nil => rfl
  | cons op ops ih => simp [runQOps, ih]

theorem runQOps_processed_append_backlog (s : JsgIsolateState)
    (ops : List QOp) :
    (runQOps s ops).processed ++ (runQOps s ops).queueBacklog
      = s.processed ++ s.queueBacklog ++ enqueuedOf ops := by
  induction ops generalizing s with
  | nil => simp [runQOps, enqueuedOf]
  | cons op ops ih =>
    cases op with
    | enqueue item =>
      rw [runQOps, enqueuedOf]
      show (runQOps (qStep s (.enqueue item)) ops).processed ++ _ = _
      rw [ih]
      simp [qStep, deferDestruction, List.append_assoc]
    | drain =>
      rw [runQOps, enqueuedOf]
      show (runQOps (qStep s .drain) ops).processed ++ _ = _
      rw [ih]
      simp [qStep, applyDeferredActions, List.append_assoc]

/-- Claim C8: over any serialized sequence of enqueues and drains, the
processed list followed by the remaining backlog always equals the initial
contents followed by all enqueued items in order (no loss, no duplication,
enqueue order preserved); and right after a drain, everything enqueued
before it has been processed and the backlog is empty — an item enqueued
concurrently with a drain serializes before it (processed by that drain) or
after it (processed by the next), never skipped. -/
theorem C8_queueNoLossNoDup (s : JsgIsolateState) (ops pre post : List QOp)
    (_hsplit : ops = pre ++ QOp.drain :: post) :
    ((runQOps s ops).processed ++ (runQOps s ops).queueBacklog
        = s.processed ++ s.queueBacklog ++ enqueuedOf ops) ∧
    (runQOps s (pre ++ [QOp.drain])).processed
        = s.processed ++ s.queueBacklog ++ enqueuedOf pre ∧
    (runQOps s (pre ++ [QOp.drain])).queueBacklog = [] := by
  refine ⟨runQOps_processed_append_backlog s ops, ?_, ?_⟩
  · rw [runQOps_append]
    show (applyDeferredActions (runQOps s pre)).processed = _
    rw [show (applyDeferredActions (runQOps s pre)).processed
        = (runQOps s pre).processed ++ (runQOps s pre).queueBacklog from rfl]
    exact runQOps_processed_append_backlog s pre
  · rw [runQOps_append]
    rfl

/-- Witness for C8: evaluated on `sampleJsg` with the concrete operation
sequence enqueue 7, drain, enqueue 9. -/
theorem C8_queueNoLossNoDup_witness :
    ((runQOps sampleJsg [.enqueue 7, .drain, .enqueue 9]).processed
        ++ (runQOps sampleJsg [.enqueue 7, .drain, .enqueue 9]).queueBacklog
      = sampleJsg.processed ++ sampleJsg.queueBacklog
        ++ enqueuedOf [.enqueue 7, .drain, .enqueue 9]) ∧
    (runQOps sampleJsg ([QOp.enqueue 7] ++ [QOp.drain])).processed
      = sampleJsg.processed ++ sampleJsg.queueBacklog
        ++ enqueuedOf [QOp.enqueue 7] ∧
    (runQOps sampleJsg ([QOp.enqueue 7] ++ [QOp.drain])).queueBacklog = [] :=
  C8_queueNoLossNoDup sampleJsg [.enqueue 7, .drain, .enqueue 9]
    [.enqueue 7] [.enqueue 9] rfl

/-- Claim C9: destroying a strongly-owned, non-moved-from `RefToDelete`
calls `removeStrongRef` exactly once, before the owned native object is
released; destroying a weakly-owned one performs no such decrement. -/
theorem C9_strongRefDecrementedOnce (r : RefToDelete)
    (hv : r.ownValid = true) :
    (r.strong = true →
      r.destroy = [.removeStrongRef r.wrappable, .releaseOwn r.wrappable]) ∧
    (r.strong = false → r.destroy = [.releaseOwn r.wrappable]) := by
  constructor
  · intro hs
    simp [RefToDelete.destroy, hv, hs]
  · intro hs
    simp [RefToDelete.destroy, hv, hs]

/-- Witness for C9: evaluated on concrete strong and weak references. -/
theorem C9_strongRefDecrementedOnce_witness :
    ((⟨true, true, 0⟩ : RefToDelete).destroy
        = [.removeStrongRef 0, .releaseOwn 0]) ∧
    ((⟨false, true, 1⟩ : RefToDelete).destroy = [.releaseOwn 1]) :=
  ⟨(C9_strongRefDecrementedOnce ⟨true, true, 0⟩ rfl).1 rfl,
   (C9_strongRefDecrementedOnce ⟨false, true, 1⟩ rfl).2 rfl⟩

/-- Claim C10: wrapper selection is total — when the isolate has only one
type wrapper (so `hasExtraWrappers` is false, the invariant maintained by
construction), or when the context's embedder-data slot holds a null
pointer, `getWrapperByContext` returns the default wrapper `wrappers[0]`
rather than failing or returning nothing. -/
theorem C10_wrapperSelectionTotal (iso : IsoWrappers) (ctx : GuestContext)
    (w : Nat) (hw : iso.wrappers.get? 0 = some w)
    (hinv : iso.hasExtraWrappers = decide (1 < iso.wrappers.length))
    (h : iso.wrappers.length = 1 ∨ ctx.embedderSlot = none) :
    getWrapperByContext iso ctx = some w := by
  rw [getWrapperByContext]
  rcases h with h1 | h2
  · have hx : iso.hasExtraWrappers = false := by
      rw [hinv, h1]
      rfl
    rw [if_pos hx]
    exact hw
  · by_cases hx : iso.hasExtraWrappers = false
    · rw [if_pos hx]
      exact hw
    · rw [if_neg hx, h2]
      exact hw

/-- Witness for C10: a single-wrapper isolate and a context with an empty
embedder slot both select the default wrapper. -/
theorem C10_wrapperSelectionTotal_witness :
    getWrapperByContext ⟨[10], false⟩ ⟨none⟩ = some 10 :=
  C10_wrapperSelectionTotal ⟨[10], false⟩ ⟨none⟩ 10 rfl (by decide)
    (Or.inl rfl)

end WorkerdJsg
